import Mathlib

/-!
Verification development for the `nataili` model-asset manager
(`src/nataili/model_manager/modelmanager.py`).

The Python class `ModelManager` is embedded shallowly:
  * the mutable object state (`self.models`, `self.available_models`,
    `self.tainted_models`, `self.loaded_models`, `self.hf_auth`,
    `self.model_base_path`) together with the local filesystem becomes the
    record `MMState`;
  * the filesystem is an association list from path strings to file
    contents; directories, permissions and path normalisation are not
    modelled, paths are compared literally (`os.path.exists p` becomes a
    lookup of the literal string `p`);
  * methods that can raise Python exceptions return `Except PyErr`;
    the exception kinds that the embedded code paths can produce are
    enumerated in `PyErr`;
  * network and hashing are parameters (`Env`): `env.network url` is the
    body served at `url`, `env.md5 c` the hex digest of contents `c`, and
    `env.formatAuth u un pw` the result of `u.format(username=..., password=...)`;
  * observable side effects of the download loops (HTTP fetches, git
    clones, manual-download prompts, ...) are recorded in a trace of
    `Effect` values returned alongside the state.
-/

namespace Nataili

/-- Python exception kinds reachable in the embedded code paths. -/
inductive PyErr where
  | keyError
  | valueError
  | nameError
  | typeError
  | indexError
  | runtimeError
  | fileNotFoundError
deriving Repr, DecidableEq

/-- Observable side effects of the download routines. -/
inductive Effect where
  /-- Embeds `download_file(url, path)`: an HTTP GET streamed to `path`. -/
  | netFetch (url path : String)
  /-- the `input("")` pause of a manual-download step. -/
  | manualWait
  /-- writing a literal `file_content` to `path`. -/
  | writeFile (path : String)
  /-- Embeds `os.symlink(target, link)`. -/
  | makeSymlink (target link : String)
  /-- Embeds `git.Git(path).clone(url)`. -/
  | gitClone (url path : String)
  /-- Embeds `shutil.rmtree(path)` of a git post-process delete. -/
  | deleteTree (path : String)
  /-- the `logger.warning("git download not implemented yet")` of
      `download_dependency`. -/
  | warnGitUnsupported
  /-- Embeds `zipfile.ZipFile(zip).extractall("temp/")`. -/
  | unzipArchive (zip : String)
  /-- Embeds `shutil.move(src, dst)`. -/
  | moveTree (src dst : String)
  /-- Embeds `os.remove(path)`. -/
  | removeFile (path : String)
deriving Repr, DecidableEq

/-- One entry of a `config.files` list: a path relative to the base
directory and an optional `md5sum` key. -/
structure FileSpec where
  path : String
  md5sum : Option String := none
deriving Repr, DecidableEq

/-- One step of a model download recipe. The Python steps are JSON
objects whose behaviour is selected by key presence; each optional key
becomes an `Option` field, each presence-only key a `Bool`. -/
structure MStep where
  file_url : Option String := none
  /-- presence of the "hf_auth" key: the url template is formatted with
      the stored credentials. -/
  hf_auth : Bool := false
  file_name : Option String := none
  file_path : Option String := none
  manual : Bool := false
  file_content : Option String := none
  symlink : Option String := none
  git : Bool := false
  /-- the "delete" paths of the optional "post_process" list of a git step. -/
  post_process : List String := []
deriving Repr, DecidableEq

/-- One step of a dependency download recipe. -/
structure DStep where
  git : Bool := false
  file_url : Option String := none
  file_name : Option String := none
  file_path : Option String := none
  unzip : Bool := false
deriving Repr, DecidableEq

/-- The "config" object of a model entry. -/
structure ModelConfig where
  files : List FileSpec := []
  download : List MStep := []
deriving Repr, DecidableEq

/-- One value of the model catalog `self.models`. -/
structure ModelEntry where
  type : String
  config : ModelConfig
deriving Repr, DecidableEq

/-- The "config" object of a dependency entry. -/
structure DepConfig where
  files : List FileSpec := []
  download : List DStep := []
deriving Repr, DecidableEq

/-- One value of the dependency catalog `self.dependencies`. -/
structure DepEntry where
  config : DepConfig
deriving Repr, DecidableEq

/-- The `hf_auth` credential dict; each field is `none` when the
corresponding key is absent. -/
structure HFAuth where
  username : Option String := none
  password : Option String := none
deriving Repr, DecidableEq

/-- Opaque runtime model object held by the loaded-model registry. -/
structure RuntimeObj where
  id : Nat
deriving Repr, DecidableEq

/-- The local filesystem: paths (literal strings) to file contents. -/
abbrev Disk := List (String × String)

/-- First-match association lookup; Python dicts have unique keys, so
this agrees with dict lookup. -/
def lookupKey {α : Type} : List (String × α) → String → Option α
  | [], _ => none
  | (k, v) :: rest, key => if k = key then some v else lookupKey rest key

/-- Write (create or overwrite) a file. -/
def diskWrite (d : Disk) (p c : String) : Disk :=
  (p, c) :: d.filter (fun e => e.1 ≠ p)

/-- Embeds `os.path.exists` on a literal path string. -/
def pathExists (d : Disk) (p : String) : Bool :=
  (lookupKey d p).isSome

/-- Whether a path string is absolute, in the sense `os.path.join` uses
to discard its first argument. -/
def isAbs (p : String) : Bool :=
  p.data.head? = some '/'

/-- Embeds `os.path.join a b`: `b` if `b` is absolute, else `a ++ "/" ++ b`
(the code never passes arguments with trailing separators). -/
def pathJoin (a b : String) : String :=
  if isAbs b then b else a ++ "/" ++ b

/-- The mutable state of a `ModelManager` object plus the filesystem. -/
structure MMState where
  models : List (String × ModelEntry)
  dependencies : List (String × DepEntry)
  available_models : List String
  tainted_models : List String
  available_dependencies : List String
  loaded_models : List (String × RuntimeObj)
  hf_auth : Option HFAuth
  model_base_path : String
  disk : Disk
deriving Repr, DecidableEq

/-- External world parameters: remote contents, hashing, url templating. -/
structure Env where
  /-- body served at a url by `requests.get`. -/
  network : String → String
  /-- hex digest of the streamed md5 of a file content (the 8192-byte
      chunked update loop hashes exactly the whole content). -/
  md5 : String → String
  /-- Embeds `url.format(username=un, password=pw)`. -/
  formatAuth : String → String → String → String

/-! ### Constructor-time catalog loading (`ModelManager.__init__`, lines 32-48)

The constructor with `download=True` runs, inside one `try`:
```
r = requests.get(remote_models)
self.models = r.json()
r = requests.get(remote_dependencies)
self.dependencies = json.load(open(pkg / "db_dep.json"))
```
The second GET result `r` is discarded: `self.dependencies` is re-read from
the bundled `db_dep.json`. Any exception in either GET or in `r.json()`
makes both catalogs fall back to the bundled copies. The fetch outcomes
are parameters: `.error` means that call raised. -/
def load_catalogs (download : Bool)
    (remote_models : Except PyErr (List (String × ModelEntry)))
    (remote_deps : Except PyErr (List (String × DepEntry)))
    (local_models : List (String × ModelEntry))
    (local_deps : List (String × DepEntry)) :
    List (String × ModelEntry) × List (String × DepEntry) :=
  if download then
    match remote_models, remote_deps with
    | .ok m, .ok _ => (m, local_deps)
    | _, _ => (local_models, local_deps)
  else (local_models, local_deps)

/-! ### Catalog accessors -/

/-- Embeds `get_model` (line 94): `self.models.get(model_name)` — `dict.get`
returns `None` when the key is absent and never raises, hence the result
is always `.ok`. -/
def get_model (s : MMState) (name : String) : Except PyErr (Option ModelEntry) :=
  .ok (lookupKey s.models name)

/-- Embeds `get_dependency` (line 115): `self.dependencies[dependency_name]` —
subscripting raises `KeyError` when the key is absent. -/
def get_dependency (s : MMState) (name : String) : Except PyErr DepEntry :=
  match lookupKey s.dependencies name with
  | some e => .ok e
  | none => .error .keyError

/-- Body of `get_model_files` for an entry already in hand (lines 119-121):
the empty list for "diffusers" entries, else `config.files`. -/
def model_files (e : ModelEntry) : List FileSpec :=
  if e.type = "diffusers" then [] else e.config.files

/-- Embeds `get_model_files` (lines 118-121); `self.models[model_name]` raises
`KeyError` on an unknown name. -/
def get_model_files (s : MMState) (name : String) : Except PyErr (List FileSpec) :=
  match lookupKey s.models name with
  | some e => .ok (model_files e)
  | none => .error .keyError

/-- Embeds `get_dependency_files` (lines 123-124). -/
def get_dependency_files (s : MMState) (name : String) : Except PyErr (List FileSpec) :=
  match lookupKey s.dependencies name with
  | some e => .ok e.config.files
  | none => .error .keyError

/-- Embeds `get_model_download` (lines 126-127). -/
def get_model_download (s : MMState) (name : String) : Except PyErr (List MStep) :=
  match lookupKey s.models name with
  | some e => .ok e.config.download
  | none => .error .keyError

/-- Embeds `get_dependency_download` (lines 129-130). -/
def get_dependency_download (s : MMState) (name : String) : Except PyErr (List DStep) :=
  match lookupKey s.dependencies name with
  | some e => .ok e.config.download
  | none => .error .keyError

/-! ### Availability checks -/

/-- Embeds `check_file_available` (lines 189-190):
`os.path.exists(os.path.join(self.model_base_path, file_path))`. -/
def check_file_available (s : MMState) (file_path : String) : Bool :=
  pathExists s.disk (pathJoin s.model_base_path file_path)

/-- Embeds `check_available` (lines 192-197): the flag starts `True`, is set to
`False` on any missing file and the loop keeps going. -/
def check_available (s : MMState) (files : List FileSpec) : Bool :=
  files.foldl (fun available file =>
    if !(check_file_available s file.path) then false else available) true

/-- Embeds `check_model_available` (lines 369-372): `False` for an unknown name,
else `check_available` over `get_model_files` (whose own lookup cannot
fail once membership is established). -/
def check_model_available (s : MMState) (name : String) : Bool :=
  match lookupKey s.models name with
  | none => false
  | some e => check_available s (model_files e)

/-! ### `init` (lines 60-79) -/

/-- The credential-shape check at the end of `init` (lines 73-78):
```
if self.hf_auth is not None:
    if "username" not in self.hf_auth and "password" not in self.hf_auth:
        raise ValueError(...)
    else:
        if self.hf_auth["username"] == "" or self.hf_auth["password"] == "":
            raise ValueError(...)
```
The guard uses `and`, so with exactly one key missing control reaches the
`else` branch, whose subscripting raises `KeyError`. The `or` in the
`else` is evaluated left to right with Python short-circuiting. -/
def check_hf_auth : Option HFAuth → Except PyErr Unit
  | none => .ok ()
  | some a =>
    if a.username.isNone && a.password.isNone then .error .valueError
    else
      match a.username with
      | none => .error .keyError
      | some u =>
        if u = "" then .error .valueError
        else
          match a.password with
          | none => .error .keyError
          | some p => if p = "" then .error .valueError else .ok ()

/-- The two wholesale recomputations of `init` (lines 61-71): first
`available_dependencies`, then `available_models`, each the catalog keys
whose file lists pass `check_available`, in catalog order. -/
def init_sets (s : MMState) : MMState :=
  let s1 := { s with available_dependencies :=
    (s.dependencies.filter
      (fun (d : String × DepEntry) => check_available s d.2.config.files)).map Prod.fst }
  { s1 with available_models :=
    (s1.models.filter
      (fun (m : String × ModelEntry) => check_available s1 (model_files m.2))).map Prod.fst }

/-- Embeds `init` (lines 60-79): recompute both availability sets, then run the
credential-shape check, then `return True`. On a raise the already
performed set assignments are not visible through the propagated
exception, so the error carries no state. -/
def init (s : MMState) : Except PyErr (Bool × MMState) :=
  let s' := init_sets s
  match check_hf_auth s'.hf_auth with
  | .error e => .error e
  | .ok _ => .ok (true, s')

/-! ### Registry and tainting -/

/-- Embeds `unload_all_models` (lines 153-156):
```
for model in self.loaded_models:
    del self.loaded_models[model]
return True
```
CPython forbids changing the size of a dict while iterating over it: with a
non-empty registry the first key is deleted in the loop body and the
next advance of the iterator raises
`RuntimeError: dictionary changed size during iteration`; the exception
propagates out of the method. With an empty registry the loop body never
runs and the method returns `True`. -/
def unload_all_models (s : MMState) : Except PyErr (Bool × MMState) :=
  match s.loaded_models with
  | [] => .ok (true, s)
  | _ :: _ => .error .runtimeError

/-- Embeds `taint_model` (lines 158-162): when the name is in
`available_models`, `list.remove` drops its first occurrence and the name
is appended to `tainted_models`; otherwise nothing happens. -/
def taint_model (s : MMState) (name : String) : MMState :=
  if name ∈ s.available_models then
    { s with available_models := s.available_models.erase name,
             tainted_models := s.tainted_models ++ [name] }
  else s

/-! ### Validation -/

/-- Embeds `validate_file` (lines 177-187): with an "md5sum" key the file is
opened at the literal `file_details["path"]` (note: not joined with the
base directory; `open` of an absent path raises `FileNotFoundError`),
hashed, and the digests compared; without the key the result is `True`
without touching the file. -/
def validate_file (env : Env) (s : MMState) (f : FileSpec) : Except PyErr Bool :=
  match f.md5sum with
  | none => .ok true
  | some declared =>
    match lookupKey s.disk f.path with
    | none => .error .fileNotFoundError
    | some content => .ok (declared = env.md5 content)

/-- The loop of `validate_model` (lines 170-175): any missing or
hash-mismatching file short-circuits to `False`. -/
def validate_files_loop (env : Env) (s : MMState) : List FileSpec → Except PyErr Bool
  | [] => .ok true
  | f :: rest =>
    if !(check_file_available s f.path) then .ok false
    else
      match validate_file env s f with
      | .error e => .error e
      | .ok v => if !v then .ok false else validate_files_loop env s rest

/-- Embeds `validate_model` (lines 168-175). -/
def validate_model (env : Env) (s : MMState) (name : String) : Except PyErr Bool :=
  match get_model_files s name with
  | .error e => .error e
  | .ok files => validate_files_loop env s files

/-! ### `download_model` (lines 220-298)

The loop body keeps three Python locals alive across iterations
(`download_url`, `download_name`, `download_path`); each is only
(re)assigned when the corresponding key is present in the current step,
and reading one that was never assigned raises `NameError`. -/

/-- Loop-carried locals of the download loops; `none` means unassigned. -/
structure DLocals where
  download_url : Option String := none
  download_name : Option String := none
  download_path : Option String := none
deriving Repr, DecidableEq

/-- One iteration of the `download_model` loop (lines 226-292), acting on
state `s` whose filesystem is the only field it may change; returns the
new filesystem, the new locals and the extended effect trace.

Faithfulness notes:
  * `file_path` (line 227-232): the per-step override
    `f"{file_path}/{file_name}"` needs both keys (a missing `file_name`
    raises `KeyError`), else `files[i]["path"]` (`IndexError` when the
    recipe is longer than the file list); the result is joined with the
    base path.
  * the auth branch (lines 236-239) subscripts `self.hf_auth`, raising
    `TypeError` when it is `None` and `KeyError` when a key is absent,
    `username` first.
  * the final branch re-joins the already joined `file_path` with the
    base path, both in `check_file_available` (line 190) and in
    `download_file` (line 201); for an absolute base path the second
    join is the identity.
  * directory creation, symlink targets on disk and git work trees are
    not modelled; those branches record their effects only. A git
    post-process delete removes every file under the deleted prefix
    (`shutil.rmtree`); the `PermissionError` it may log non-fatally, and
    the `FileNotFoundError` of a missing tree, are not modelled as no
    claim touches git post-processing. -/
def model_dl_step (env : Env) (name : String) (files : List FileSpec) (s : MMState)
    (step : MStep) (i : Nat) (loc : DLocals) (effs : List Effect) :
    Except PyErr (Disk × DLocals × List Effect) :=
  let fp0 : Except PyErr String :=
    match step.file_path, step.file_name with
    | some p, some n => .ok (p ++ "/" ++ n)
    | some _, none => .error .keyError
    | none, _ =>
      match files[i]? with
      | some f => .ok f.path
      | none => .error .indexError
  match fp0 with
  | .error e => .error e
  | .ok fp1 =>
    let file_path := pathJoin s.model_base_path fp1
    let locE : Except PyErr DLocals :=
      match step.file_url with
      | none => .ok loc
      | some u =>
        if step.hf_auth then
          match s.hf_auth with
          | none => .error .typeError
          | some a =>
            match a.username with
            | none => .error .keyError
            | some un =>
              match a.password with
              | none => .error .keyError
              | some pw => .ok { loc with download_url := some (env.formatAuth u un pw) }
        else .ok { loc with download_url := some u }
    match locE with
    | .error e => .error e
    | .ok loc =>
      let loc := match step.file_name with
        | some n => { loc with download_name := some n }
        | none => loc
      let loc := match step.file_path with
        | some p => { loc with download_path := some (pathJoin s.model_base_path p) }
        | none => loc
      if step.manual then
        -- the warning f-string reads download_url, download_path, download_name
        match loc.download_url, loc.download_path, loc.download_name with
        | some _, some _, some _ => .ok (s.disk, loc, effs ++ [Effect.manualWait])
        | _, _, _ => .error .nameError
      else
        match step.file_content with
        | some content =>
          match loc.download_path, loc.download_name with
          | some dp, some dn =>
            .ok (diskWrite s.disk (pathJoin dp dn) content,
                 loc, effs ++ [Effect.writeFile (pathJoin dp dn)])
          | _, _ => .error .nameError
        | none =>
          match step.symlink with
          | some target =>
            match loc.download_path, loc.download_name with
            | some dp, some dn =>
              .ok (s.disk, loc,
                   effs ++ [Effect.makeSymlink (pathJoin s.model_base_path target)
                              (pathJoin dp dn)])
            | _, _ => .error .nameError
          | none =>
            if step.git then
              match loc.download_url with
              | some u =>
                .ok (s.disk.filter (fun e =>
                       !(step.post_process.any (fun d =>
                           e.1.startsWith (pathJoin s.model_base_path d)))),
                     loc,
                     effs ++ [Effect.gitClone u file_path]
                          ++ step.post_process.map
                               (fun d => Effect.deleteTree (pathJoin s.model_base_path d)))
              | none => .error .nameError
            else
              -- lines 289-292: plain / authenticated fetch with idempotent skip
              if !(check_file_available s file_path) || name ∈ s.tainted_models then
                match loc.download_url with
                | some u =>
                  .ok (diskWrite s.disk (pathJoin s.model_base_path file_path) (env.network u),
                       loc,
                       effs ++ [Effect.netFetch u (pathJoin s.model_base_path file_path)])
                | none => .error .nameError
              else .ok (s.disk, loc, effs)

/-- The `for i in range(len(download))` loop of `download_model`. -/
def model_dl_loop (env : Env) (name : String) (files : List FileSpec) :
    MMState → List MStep → Nat → DLocals → List Effect →
    Except PyErr (Disk × List Effect)
  | s, [], _, _, effs => .ok (s.disk, effs)
  | s, step :: rest, i, loc, effs =>
    match model_dl_step env name files s step i loc effs with
    | .error e => .error e
    | .ok (d, loc', effs') =>
      model_dl_loop env name files { s with disk := d } rest (i + 1) loc' effs'

/-- Lines 295-296 of `download_model`: drop the first occurrence of the
name from `tainted_models` when present (`list.remove`). -/
def untaint (s : MMState) (name : String) : MMState :=
  if name ∈ s.tainted_models then
    { s with tainted_models := s.tainted_models.erase name }
  else s

/-- Embeds `download_model` (lines 220-298): immediate `True` for an available
model; otherwise run the recipe, validate the whole model (`False` on
failure), drop the name from `tainted_models` when present, recompute
availability via `init`, and return `True`. -/
def download_model (env : Env) (s : MMState) (name : String) :
    Except PyErr (Bool × MMState × List Effect) :=
  if name ∈ s.available_models then .ok (true, s, [])
  else
    match get_model_download s name with
    | .error e => .error e
    | .ok download =>
      match get_model_files s name with
      | .error e => .error e
      | .ok files =>
        match model_dl_loop env name files s download 0 ⟨none, none, none⟩ [] with
        | .error e => .error e
        | .ok (d, effs) =>
          let s1 := { s with disk := d }
          match validate_model env s1 name with
          | .error e => .error e
          | .ok ok =>
            if !ok then .ok (false, s1, effs)
            else
              match init (untaint s1 name) with
              | .error e => .error e
              | .ok (_, s3) => .ok (true, s3, effs)

/-! ### `download_dependency` (lines 300-344) -/

/-- The `for i in range(len(download))` loop of `download_dependency`
(lines 306-342). A step with a "git" key logs
"git download not implemented yet" and executes `break`: the remaining
steps of the recipe are not visited and control falls through to the
code after the loop. Other steps resolve `files[i]["path"]`
(`IndexError` when out of range), update the three locals,
`logger.debug(download_name)` (a `NameError` when no step so far carried
"file_name"), then either run the unzip sequence or fetch the file when
it is absent (no taint consultation here). Archive extraction contents,
the moved tree and the scratch directory removal are recorded as effects
only; the zip file write and removal are applied to the filesystem
(`download_file` re-joins the already joined zip path with the base,
`os.remove` does not). -/
def dep_dl_loop (env : Env) (files : List FileSpec) :
    MMState → List DStep → Nat → DLocals → List Effect →
    Except PyErr (Disk × List Effect)
  | s, [], _, _, effs => .ok (s.disk, effs)
  | s, step :: rest, i, loc, effs =>
    if step.git then .ok (s.disk, effs ++ [Effect.warnGitUnsupported])
    else
      match files[i]? with
      | none => .error .indexError
      | some f =>
        let file_path := pathJoin s.model_base_path f.path
        let loc := match step.file_url with
          | some u => { loc with download_url := some u }
          | none => loc
        let loc := match step.file_name with
          | some n => { loc with download_name := some n }
          | none => loc
        let loc := match step.file_path with
          | some p => { loc with download_path := some (pathJoin s.model_base_path p) }
          | none => loc
        match loc.download_name with
        | none => .error .nameError
        | some dn =>
          if step.unzip then
            match loc.download_url, loc.download_path with
            | some u, some dp =>
              let zip_path := pathJoin s.model_base_path ("temp/" ++ dn ++ ".zip")
              let d1 := diskWrite s.disk (pathJoin s.model_base_path zip_path) (env.network u)
              let d2 := d1.filter (fun e => e.1 ≠ zip_path)
              let src := s.model_base_path ++ "/temp/" ++ dn ++ "-main/" ++ dn
              let effs' := effs
                ++ [Effect.netFetch u (pathJoin s.model_base_path zip_path),
                    Effect.unzipArchive zip_path,
                    Effect.moveTree src dp,
                    Effect.removeFile zip_path,
                    Effect.deleteTree (s.model_base_path ++ "/temp/" ++ dn ++ "-main")]
              dep_dl_loop env files { s with disk := d2 } rest (i + 1) loc effs'
            | _, _ => .error .nameError
          else
            if !(check_file_available s file_path) then
              match loc.download_url with
              | some u =>
                let d := diskWrite s.disk (pathJoin s.model_base_path file_path)
                           (env.network u)
                dep_dl_loop env files { s with disk := d } rest (i + 1) loc
                  (effs ++ [Effect.netFetch u (pathJoin s.model_base_path file_path)])
              | none => .error .nameError
            else dep_dl_loop env files s rest (i + 1) loc effs

/-- Embeds `download_dependency` (lines 300-344): immediate `True` for an
available dependency; otherwise resolve recipe and file list, run the
loop, recompute availability via `init`, return `True` (there is no
whole-entry validation pass). -/
def download_dependency (env : Env) (s : MMState) (name : String) :
    Except PyErr (Bool × MMState × List Effect) :=
  if name ∈ s.available_dependencies then .ok (true, s, [])
  else
    match get_dependency_download s name with
    | .error e => .error e
    | .ok download =>
      match get_dependency_files s name with
      | .error e => .error e
      | .ok files =>
        match dep_dl_loop env files s download 0 ⟨none, none, none⟩ [] with
        | .error e => .error e
        | .ok (d, effs) =>
          match init { s with disk := d } with
          | .error e => .error e
          | .ok (_, s') => .ok (true, s', effs)

/-- Projection of a download result to its success flag and effect
trace, used to state concrete counterexample runs compactly. -/
def runOutcome (r : Except PyErr (Bool × MMState × List Effect)) :
    Option (Bool × List Effect) :=
  match r with
  | .ok (b, _, effs) => some (b, effs)
  | .error _ => none

/-! ### Step shapes and boolean exclusivity -/

/-- A model-recipe step carrying only a "file_url" key: executed by the
final (plain fetch) branch of the `download_model` loop. -/
def plainFetchStep (u : String) : MStep := { file_url := some u }

/-- A model-recipe step carrying "file_url" and "hf_auth": the
authenticated fetch. -/
def authFetchStep (u : String) : MStep := { file_url := some u, hf_auth := true }

/-- No name occurs in both lists (decidable form of the mutual-exclusivity
invariant over `available_models` and `tainted_models`). -/
def exclusiveSets (avail tainted : List String) : Bool :=
  avail.all (fun x => !(tainted.contains x))

/-! ### Concrete fixtures for counterexample runs and witnesses -/

/-- An empty manager state over the absolute base path "/b". -/
def baseState : MMState :=
  { models := [], dependencies := [], available_models := [], tainted_models := [],
    available_dependencies := [], loaded_models := [], hf_auth := none,
    model_base_path := "/b", disk := [] }

/-- A concrete external world for the fixture runs. -/
def demoEnv : Env :=
  { network := fun _ => "body",
    md5 := fun c => "h:" ++ c,
    formatAuth := fun u un pw => u ++ "#" ++ un ++ ":" ++ pw }

/-- Fixture model "M": one required file "f" without checksum and a
one-step plain-fetch recipe. -/
def entryM : ModelEntry :=
  { type := "ckpt",
    config := { files := [{ path := "f" }], download := [plainFetchStep "u"] } }

/-- Fixture state: catalog contains "M" and its file is present on disk
(at "/b/f", the base-joined path). -/
def demoMState : MMState :=
  { baseState with models := [("M", entryM)], disk := [("/b/f", "x")] }

/-- The run refuting the exclusivity claim: recompute availability, taint
"M", recompute again. -/
def c1run : Except PyErr MMState :=
  match init demoMState with
  | .error e => .error e
  | .ok (_, s1) =>
    match init (taint_model s1 "M") with
    | .error e => .error e
    | .ok (_, s3) => .ok s3

/-- C1 witness fixture: a disjoint, duplicate-free pair of sets. -/
def c1wstate : MMState :=
  { baseState with available_models := ["M"], tainted_models := ["T"] }

/-- C2 fixture: a registry holding one loaded model. -/
def c2state : MMState := { baseState with loaded_models := [("m", ⟨0⟩)] }

/-- C3 fixture: the remote model document. -/
def c3remote_models : List (String × ModelEntry) := [("RM", { type := "ckpt", config := {} })]

/-- C3 fixture: the remote dependency document (served but discarded). -/
def c3remote_deps : List (String × DepEntry) := [("RD", { config := {} })]

/-- C3 fixture: the bundled model document. -/
def c3local_models : List (String × ModelEntry) := [("LM", { type := "ckpt", config := {} })]

/-- C3 fixture: the bundled dependency document. -/
def c3local_deps : List (String × DepEntry) := [("LD", { config := {} })]

/-- C4 fixture entries and state: each catalog holds the single name "A". -/
def c4entryA : ModelEntry := { type := "ckpt", config := {} }

def c4depA : DepEntry := { config := {} }

def c4state : MMState :=
  { baseState with models := [("A", c4entryA)], dependencies := [("A", c4depA)] }

/-- C5 fixture dependency "D": two files; recipe = a git step followed by
a plain fetch step whose file is absent from the (empty) disk. -/
def c5dep : DepEntry :=
  { config := { files := [{ path := "d1" }, { path := "d2" }],
                download := [{ git := true },
                             { file_url := some "u2", file_name := some "n2" }] } }

def c5state : MMState := { baseState with dependencies := [("D", c5dep)] }

/-- C6 fixture: credentials configured with the "username" key absent. -/
def c6state : MMState :=
  { baseState with hf_auth := some { username := none, password := some "x" } }

/-- C7 witness fixture: credentials present, file list ["f"], the fetch
destination "/b/f" present on disk, "M" untainted. -/
def c7wstate : MMState :=
  { baseState with hf_auth := some { username := some "un", password := some "pw" },
                   disk := [("/b/f", "x")] }

def c7wfiles : List FileSpec := [{ path := "f" }]

/-- C8 fixtures: a file entry declaring the digest of content "good", a
checksum-free entry, and two disks: the matching content and a
single-byte mutation of it. -/
def c8file : FileSpec := { path := "f.bin", md5sum := some "h:good" }

def c8nosum : FileSpec := { path := "f.bin" }

def c8good : MMState := { baseState with disk := [("f.bin", "good")] }

def c8bad : MMState := { baseState with disk := [("f.bin", "gooe")] }

/-- C9 counterexample run: init; taint "M"; init; taint "M";
download_model "M". The middle init re-adds the still-tainted "M" to
`available_models`, so the second taint appends a duplicate to
`tainted_models`; the successful download removes only one occurrence. -/
def c9run : Except PyErr (Bool × MMState) :=
  match init demoMState with
  | .error e => .error e
  | .ok (_, s1) =>
    match init (taint_model s1 "M") with
    | .error e => .error e
    | .ok (_, s3) =>
      match download_model demoEnv (taint_model s3 "M") "M" with
      | .error e => .error e
      | .ok (b, s5, _) => .ok (b, s5)

/-- C9 witness fixture: "M" available, nothing tainted. -/
def c9wstate : MMState := { demoMState with available_models := ["M"] }

/-- The (successful) result of taint "M" then download "M" from the C9
witness fixture. -/
def c9wresult : Bool × MMState × List Effect :=
  (download_model demoEnv (taint_model c9wstate "M") "M").toOption.getD
    (false, c9wstate, [])

def c9wfinal : MMState := c9wresult.2.1

def c9weffs : List Effect := c9wresult.2.2

/-- C10 fixture: a "diffusers" catalog entry listing a file that is
absent from the (empty) disk. -/
def c10entry : ModelEntry :=
  { type := "diffusers", config := { files := [{ path := "missing.bin" }] } }

def c10state : MMState := { baseState with models := [("DM", c10entry)] }

/-! ### Helper lemmas -/

theorem lookupKey_mem {α : Type} : ∀ {l : List (String × α)} {k : String} {v : α},
    lookupKey l k = some v → (k, v) ∈ l
  | [], _, _, h => by simp [lookupKey] at h
  | (k', v') :: rest, k, v, h => by
    unfold lookupKey at h
    by_cases hk : k' = k
    · subst hk
      rw [if_pos rfl] at h
      injection h with h
      subst h
      exact List.mem_cons_self _ _
    · rw [if_neg hk] at h
      exact List.mem_cons_of_mem _ (lookupKey_mem h)

theorem check_available_foldl (s : MMState) :
    ∀ (files : List FileSpec) (acc : Bool),
      files.foldl (fun available file =>
          if !(check_file_available s file.path) then false else available) acc
        = (acc && files.all (fun f => check_file_available s f.path))
  | [], acc => by simp
  | f :: rest, acc => by
    rw [List.foldl_cons, check_available_foldl s rest, List.all_cons]
    cases hc : check_file_available s f.path <;> cases acc <;> simp [hc]

/-- Lemma: `check_available` agrees with the conjunction over the file list. -/
theorem check_available_eq_all (s : MMState) (files : List FileSpec) :
    check_available s files = files.all (fun f => check_file_available s f.path) := by
  unfold check_available
  rw [check_available_foldl]
  simp

theorem validate_files_loop_all (env : Env) (s : MMState) :
    ∀ {files : List FileSpec}, validate_files_loop env s files = .ok true →
      files.all (fun f => check_file_available s f.path) = true
  | [], _ => rfl
  | f :: rest, h => by
    unfold validate_files_loop at h
    cases hc : check_file_available s f.path with
    | false => rw [hc] at h; simp at h
    | true =>
      rw [hc] at h
      simp only [Bool.not_true, Bool.false_eq_true, if_false] at h
      cases hv : validate_file env s f with
      | error e => rw [hv] at h; simp at h
      | ok v =>
        rw [hv] at h
        cases v with
        | false => simp at h
        | true =>
          simp only [Bool.not_true, Bool.false_eq_true, if_false] at h
          rw [List.all_cons, hc, validate_files_loop_all env s h]
          rfl

/-- A validated model has an entry whose resolved file list passes the
pure availability check. -/
theorem validate_model_ok (env : Env) (s : MMState) (name : String)
    (h : validate_model env s name = .ok true) :
    ∃ e, lookupKey s.models name = some e ∧ check_available s (model_files e) = true := by
  unfold validate_model get_model_files at h
  cases hl : lookupKey s.models name with
  | none => rw [hl] at h; simp at h
  | some e =>
    rw [hl] at h
    refine ⟨e, rfl, ?_⟩
    rw [check_available_eq_all]
    exact validate_files_loop_all env s h

theorem init_sets_tainted (s : MMState) :
    (init_sets s).tainted_models = s.tainted_models := rfl

theorem init_sets_models (s : MMState) :
    (init_sets s).models = s.models := rfl

/-- A catalog member whose files pass the check is listed by the
recomputation. -/
theorem init_sets_avail_mem {s : MMState} {name : String} {e : ModelEntry}
    (hl : lookupKey s.models name = some e)
    (hc : check_available s (model_files e) = true) :
    name ∈ (init_sets s).available_models := by
  have hmem : (name, e) ∈ s.models := lookupKey_mem hl
  unfold init_sets
  refine List.mem_map.2 ⟨(name, e), List.mem_filter.2 ⟨hmem, ?_⟩, rfl⟩
  exact hc

/-- Lemma: `init` never returns `False`, and its state is `init_sets`. -/
theorem init_ok {s : MMState} {b : Bool} {s' : MMState}
    (h : init s = .ok (b, s')) : b = true ∧ s' = init_sets s := by
  unfold init at h
  dsimp only [] at h
  cases hc : check_hf_auth (init_sets s).hf_auth with
  | error e => rw [hc] at h; simp at h
  | ok u =>
    rw [hc] at h
    injection h with h
    injection h with h1 h2
    exact ⟨h1.symm, h2.symm⟩

theorem untaint_models (s : MMState) (name : String) :
    (untaint s name).models = s.models := by
  unfold untaint; split <;> rfl

theorem untaint_disk (s : MMState) (name : String) :
    (untaint s name).disk = s.disk := by
  unfold untaint; split <;> rfl

theorem untaint_base (s : MMState) (name : String) :
    (untaint s name).model_base_path = s.model_base_path := by
  unfold untaint; split <;> rfl

/-- Lemma: `check_available` reads the state only through the filesystem and the
base path. -/
theorem check_available_congr {s s' : MMState} (files : List FileSpec)
    (hd : s.disk = s'.disk) (hb : s.model_base_path = s'.model_base_path) :
    check_available s files = check_available s' files := by
  unfold check_available check_file_available
  rw [hd, hb]

/-- After `untaint` the name is gone from `tainted_models`, provided it
occurred at most once. -/
theorem untaint_not_mem {s : MMState} {name : String}
    (h : s.tainted_models.count name ≤ 1) :
    name ∉ (untaint s name).tainted_models := by
  unfold untaint
  by_cases hm : name ∈ s.tainted_models
  · rw [if_pos hm]
    intro hmem
    have h1 : 0 < s.tainted_models.count name := List.count_pos_iff.2 hm
    have h2 : (s.tainted_models.erase name).count name
        = s.tainted_models.count name - 1 := List.count_erase_self ..
    have h3 : 0 < (s.tainted_models.erase name).count name := List.count_pos_iff.2 hmem
    omega
  · rw [if_neg hm]
    exact hm

/-- Characterisation of the boolean exclusivity check. -/
theorem exclusiveSets_iff (avail tainted : List String) :
    exclusiveSets avail tainted = true ↔ ∀ x, x ∈ avail → x ∉ tainted := by
  unfold exclusiveSets
  simp [List.all_eq_true]

/-! ### Claims -/

/-- C2: the claim states that `unload_all_models` succeeds on every
registry state and leaves it empty. The method deletes registry keys
while iterating over the registry dict, which CPython rejects: on any
non-empty registry (here one entry) the call raises `RuntimeError:
dictionary changed size during iteration` instead of returning `True`. -/
theorem C2_unload_all_raises :
    unload_all_models c2state = .error PyErr.runtimeError := rfl

/-- C3: the claim states that with remote refresh enabled and both
fetches succeeding, both catalogs reflect the remote documents. The
constructor assigns the fetched model document, but then re-reads the
bundled `db_dep.json` for the dependency catalog, discarding the second
fetched body (line 39): with distinct remote and bundled dependency
documents the result keeps the bundled one. -/
theorem C3_dependency_catalog_stays_local :
    load_catalogs true (.ok c3remote_models) (.ok c3remote_deps) c3local_models c3local_deps
      = (c3remote_models, c3local_deps) ∧ c3local_deps ≠ c3remote_deps := by
  exact ⟨rfl, by decide⟩

/-- C4 counterexample: the name "x" is absent from the model catalog, yet
`get_model` does not fail: `dict.get` returns `None` normally, so the
embedded call returns `.ok none` and has no error path at all, refuting
the claim that both lookups fail with NotFound on an absent name. -/
theorem C4_counterexample : get_model c4state "x" = .ok none := rfl

/-- C4 amended: for every name, `get_dependency` returns the catalog
entry when present and raises `KeyError` when absent, while `get_model`
returns the entry when present and `None` (no exception) when absent. -/
theorem C4_lookups (s : MMState) (nm np nd nq : String)
    (em : ModelEntry) (ed : DepEntry)
    (hm : lookupKey s.models nm = some em)
    (hd : lookupKey s.dependencies nd = some ed)
    (hm' : lookupKey s.models np = none)
    (hd' : lookupKey s.dependencies nq = none) :
    get_model s nm = .ok (some em) ∧
    get_dependency s nd = .ok ed ∧
    get_model s np = .ok none ∧
    get_dependency s nq = .error PyErr.keyError := by
  refine ⟨?_, ?_, ?_, ?_⟩
  · unfold get_model; rw [hm]
  · unfold get_dependency; rw [hd]
  · unfold get_model; rw [hm']
  · unfold get_dependency; rw [hd']

/-- C4 amended witness: the lookups evaluated on the concrete catalog
holding exactly the name "A". -/
theorem C4_lookups_witness :
    get_model c4state "A" = .ok (some c4entryA) ∧
    get_dependency c4state "A" = .ok c4depA ∧
    get_model c4state "x" = .ok none ∧
    get_dependency c4state "x" = .error PyErr.keyError :=
  C4_lookups c4state "A" "x" "A" "x" c4entryA c4depA rfl rfl rfl rfl

/-- C6: the claim states that with credentials configured, `init` fails
with InvalidConfiguration (`ValueError`) exactly when a username or a
non-empty password is lacking, and with no other kind of exception. With
the "username" key absent and a "password" key present, the membership
guard (line 74, an `and` of the two absences) does not fire and the
subscripting at line 77 raises `KeyError` — a different exception kind. -/
theorem C6_keyerror_on_missing_username :
    init c6state = .error PyErr.keyError ∧ PyErr.keyError ≠ PyErr.valueError := by
  exact ⟨rfl, by decide⟩

/-- C8: checksum validation returns true when the declared checksum
equals the content hash, false when the content was mutated so that the
hashes differ, and true unconditionally when no checksum is declared. -/
theorem C8_checksum (env : Env) (s s' : MMState) (f g : FileSpec) (c c' : String)
    (hf : f.md5sum = some (env.md5 c))
    (hs : lookupKey s.disk f.path = some c)
    (hs' : lookupKey s'.disk f.path = some c')
    (hmut : env.md5 c' ≠ env.md5 c)
    (hg : g.md5sum = none) :
    validate_file env s f = .ok true ∧
    validate_file env s' f = .ok false ∧
    validate_file env s g = .ok true ∧
    validate_file env s' g = .ok true := by
  refine ⟨?_, ?_, ?_, ?_⟩
  · unfold validate_file; rw [hf, hs]; simp
  · unfold validate_file; rw [hf, hs']; simp [Ne.symm hmut]
  · unfold validate_file; rw [hg]
  · unfold validate_file; rw [hg]

/-- C8 witness: content "good" with declared digest `md5 "good"`
validates true; the single-byte mutation "gooe" validates false; the
checksum-free entry validates true on both disks. -/
theorem C8_checksum_witness :
    validate_file demoEnv c8good c8file = .ok true ∧
    validate_file demoEnv c8bad c8file = .ok false ∧
    validate_file demoEnv c8good c8nosum = .ok true ∧
    validate_file demoEnv c8bad c8nosum = .ok true :=
  C8_checksum demoEnv c8good c8bad c8file c8nosum "good" "gooe"
    (by decide) rfl rfl (by decide) rfl

/-- C10: a catalog entry of type "diffusers" resolves to an empty
required-file list, so the availability gate passes vacuously:
`check_model_available` is true and `init` lists the name in
`available_models`, whatever the disk holds. -/
theorem C10_diffusers (s : MMState) (name : String) (e : ModelEntry)
    (hl : lookupKey s.models name = some e)
    (ht : e.type = "diffusers")
    (hauth : check_hf_auth s.hf_auth = .ok ()) :
    get_model_files s name = .ok [] ∧
    check_available s [] = true ∧
    check_model_available s name = true ∧
    init s = .ok (true, init_sets s) ∧
    name ∈ (init_sets s).available_models := by
  have hmf : model_files e = [] := by unfold model_files; rw [if_pos ht]
  refine ⟨?_, rfl, ?_, ?_, ?_⟩
  · unfold get_model_files; rw [hl]; dsimp only []; rw [hmf]
  · unfold check_model_available; rw [hl]; dsimp only []; rw [hmf]; rfl
  · unfold init
    dsimp only []
    have hh : (init_sets s).hf_auth = s.hf_auth := rfl
    rw [hh, hauth]
  · exact init_sets_avail_mem hl (by rw [hmf]; rfl)

/-- C10 witness: the concrete "diffusers" entry "DM" whose declared file
is absent from the empty disk is still classified available. -/
theorem C10_diffusers_witness :
    get_model_files c10state "DM" = .ok [] ∧
    check_available c10state [] = true ∧
    check_model_available c10state "DM" = true ∧
    init c10state = .ok (true, init_sets c10state) ∧
    "DM" ∈ (init_sets c10state).available_models :=
  C10_diffusers c10state "DM" c10entry rfl rfl rfl

/-- C1 counterexample: the claim states no operation sequence leaves a
name in both `available_models` and `tainted_models`. The reachable run
init; taint_model "M"; init (model "M" present on disk) ends with "M" in
both sets: `init` recomputes availability purely from disk presence and
never removes names from `tainted_models`. -/
theorem C1_counterexample :
    c1run.toOption.map
      (fun s => s.available_models.contains "M" && s.tainted_models.contains "M")
      = some true := by decide

/-- C1 amended: mutual exclusivity is preserved by `taint_model` (from
any state with a duplicate-free available list and disjoint sets), but
not by `init`, which can re-add a tainted name whose files are present
without removing it from `tainted_models`. -/
theorem C1_taint_preserves_exclusivity (s : MMState) (name : String)
    (hnd : s.available_models.Nodup)
    (hdisj : exclusiveSets s.available_models s.tainted_models = true) :
    exclusiveSets (taint_model s name).available_models
      (taint_model s name).tainted_models = true := by
  rw [exclusiveSets_iff] at hdisj ⊢
  intro x hx
  unfold taint_model at hx ⊢
  by_cases hm : name ∈ s.available_models
  · rw [if_pos hm] at hx ⊢
    have hxa := (List.Nodup.mem_erase_iff hnd).1 hx
    intro hmem
    rcases List.mem_append.1 hmem with h1 | h1
    · exact hdisj x hxa.2 h1
    · exact hxa.1 (List.mem_singleton.1 h1)
  · rw [if_neg hm] at hx ⊢
    exact hdisj x hx

/-- C1 amended witness: tainting "M" from the disjoint fixture keeps the
sets disjoint. -/
theorem C1_taint_preserves_exclusivity_witness :
    exclusiveSets (taint_model c1wstate "M").available_models
      (taint_model c1wstate "M").tainted_models = true :=
  C1_taint_preserves_exclusivity c1wstate "M" (by decide) (by decide)

/-- C5 counterexample: the claim states a git step aborts only itself and
the remaining recipe steps still execute. For dependency "D" with recipe
[git step, plain fetch step] over an empty disk the fetch of the second
step would run (its file is absent), yet the trace of the whole call
holds only the git warning — the loop `break` skipped the rest — and the
call still returns True. -/
theorem C5_counterexample :
    runOutcome (download_dependency demoEnv c5state "D")
      = some (true, [Effect.warnGitUnsupported]) := by decide

/-- C5 amended: a git step in a dependency recipe logs the unsupported
warning and breaks out of the loop: however many steps remain, none is
executed and the step engine returns successfully with the state it had,
non-fatally to the surrounding call. -/
theorem C5_git_breaks_recipe (env : Env) (files : List FileSpec) (s : MMState)
    (g : DStep) (rest : List DStep) (i : Nat) (loc : DLocals) (effs : List Effect)
    (hg : g.git = true) :
    dep_dl_loop env files s (g :: rest) i loc effs
      = .ok (s.disk, effs ++ [Effect.warnGitUnsupported]) := by
  simp only [dep_dl_loop]
  rw [hg]
  simp

/-- C5 amended witness: a git step followed by a fetch step produces only
the warning, for any tail. -/
theorem C5_git_breaks_recipe_witness :
    dep_dl_loop demoEnv [] baseState [{ git := true }, { file_url := some "u2" }] 0
        ⟨none, none, none⟩ []
      = .ok (baseState.disk, [Effect.warnGitUnsupported]) :=
  C5_git_breaks_recipe demoEnv [] baseState { git := true } [{ file_url := some "u2" }] 0
    ⟨none, none, none⟩ [] rfl

/-- C7: a plain or authenticated fetch step of `download_model` performs
network I/O exactly when the destination file is absent or the model is
tainted: with the destination present and the model untainted the step
is a no-op (no fetch effect, filesystem unchanged), and a tainted model
is re-fetched even with the destination present. The destination is the
path `download_file` writes to: the step resolves `files[i].path`
against the base directory and both the existence check and
`download_file` join that result with the base once more — the same
expression, so the check and the write always agree; for an absolute
base path (the default) the second join is the identity and the
destination is the manifest path under the base. -/
theorem C7_fetch_skip (env : Env) (name : String) (files : List FileSpec)
    (s : MMState) (i : Nat) (loc : DLocals) (effs : List Effect)
    (u un pw : String) (f : FileSpec)
    (hf : files[i]? = some f)
    (hauth : s.hf_auth = some { username := some un, password := some pw }) :
    (pathExists s.disk (pathJoin s.model_base_path (pathJoin s.model_base_path f.path)) = true
        ∧ name ∉ s.tainted_models →
      model_dl_step env name files s (plainFetchStep u) i loc effs
          = .ok (s.disk, { loc with download_url := some u }, effs)
        ∧ model_dl_step env name files s (authFetchStep u) i loc effs
          = .ok (s.disk, { loc with download_url := some (env.formatAuth u un pw) }, effs)) ∧
    (pathExists s.disk (pathJoin s.model_base_path (pathJoin s.model_base_path f.path)) = false
        ∨ name ∈ s.tainted_models →
      model_dl_step env name files s (plainFetchStep u) i loc effs
          = .ok (diskWrite s.disk
                   (pathJoin s.model_base_path (pathJoin s.model_base_path f.path))
                   (env.network u),
                 { loc with download_url := some u },
                 effs ++ [Effect.netFetch u
                   (pathJoin s.model_base_path (pathJoin s.model_base_path f.path))])
        ∧ model_dl_step env name files s (authFetchStep u) i loc effs
          = .ok (diskWrite s.disk
                   (pathJoin s.model_base_path (pathJoin s.model_base_path f.path))
                   (env.network (env.formatAuth u un pw)),
                 { loc with download_url := some (env.formatAuth u un pw) },
                 effs ++ [Effect.netFetch (env.formatAuth u un pw)
                   (pathJoin s.model_base_path (pathJoin s.model_base_path f.path))])) := by
  constructor
  · rintro ⟨hp, hti⟩
    constructor
    · simp [model_dl_step, plainFetchStep, hf, check_file_available, hp, hti]
    · simp [model_dl_step, authFetchStep, hf, hauth, check_file_available, hp, hti]
  · intro hcond
    rcases hcond with hp | hti
    · constructor
      · simp [model_dl_step, plainFetchStep, hf, check_file_available, hp]
      · simp [model_dl_step, authFetchStep, hf, hauth, check_file_available, hp]
    · have hd : decide (name ∈ s.tainted_models) = true := by simp [hti]
      constructor
      · simp [model_dl_step, plainFetchStep, hf, check_file_available, hd]
      · simp [model_dl_step, authFetchStep, hf, hauth, check_file_available, hd]

/-- C7 witness: with "/b/f" present and "M" untainted, both the plain and
the authenticated fetch step skip the network and leave the filesystem
unchanged. -/
theorem C7_fetch_skip_witness :
    (model_dl_step demoEnv "M" c7wfiles c7wstate (plainFetchStep "u") 0
        ⟨none, none, none⟩ []
      = .ok (c7wstate.disk, { download_url := some "u" }, [])) ∧
    (model_dl_step demoEnv "M" c7wfiles c7wstate (authFetchStep "u") 0
        ⟨none, none, none⟩ []
      = .ok (c7wstate.disk,
             { download_url := some (demoEnv.formatAuth "u" "un" "pw") }, [])) :=
  (C7_fetch_skip demoEnv "M" c7wfiles c7wstate 0 ⟨none, none, none⟩ []
      "u" "un" "pw" { path := "f" } rfl rfl).1 ⟨by decide, by decide⟩

/-- Inversion of a successful non-trivial `download_model` run: the model
validated on the post-loop filesystem and the final state is the
availability recomputation of the untainted intermediate state. -/
theorem download_model_ok_inv {env : Env} {s : MMState} {name : String}
    {s' : MMState} {effs : List Effect}
    (hna : name ∉ s.available_models)
    (h : download_model env s name = .ok (true, s', effs)) :
    ∃ d, validate_model env { s with disk := d } name = .ok true ∧
      s' = init_sets (untaint { s with disk := d } name) := by
  unfold download_model at h
  rw [if_neg hna] at h
  cases h1 : get_model_download s name with
  | error e => rw [h1] at h; exact absurd h (by simp)
  | ok download =>
    rw [h1] at h
    dsimp only [] at h
    cases h2 : get_model_files s name with
    | error e => rw [h2] at h; exact absurd h (by simp)
    | ok files =>
      rw [h2] at h
      dsimp only [] at h
      cases h3 : model_dl_loop env name files s download 0 ⟨none, none, none⟩ [] with
      | error e => rw [h3] at h; exact absurd h (by simp)
      | ok p =>
        obtain ⟨d, effs0⟩ := p
        rw [h3] at h
        dsimp only [] at h
        cases h4 : validate_model env { s with disk := d } name with
        | error e => rw [h4] at h; exact absurd h (by simp)
        | ok ok =>
          rw [h4] at h
          dsimp only [] at h
          cases ok with
          | false => simp at h
          | true =>
            simp only [Bool.not_true, Bool.false_eq_true, if_false] at h
            cases h5 : init (untaint { s with disk := d } name) with
            | error e => rw [h5] at h; exact absurd h (by simp)
            | ok q =>
              obtain ⟨b2, s3⟩ := q
              rw [h5] at h
              dsimp only [] at h
              injection h with h
              injection h with hb hrest
              injection hrest with hs3 heffs
              obtain ⟨hb2, hinit⟩ := init_ok h5
              exact ⟨d, h4, by rw [← hs3, hinit]⟩

/-- C9 counterexample: the claim states that after `taint_model(name)`
followed by a successful `download_model(name)` the name is available and
not tainted. Starting from the fixture (file of "M" on disk), the
reachable run init; taint "M"; init; taint "M"; download "M" ends with a
successful download and "M" both available and still tainted: the middle
init re-added the tainted "M" to `available_models`, the second taint
appended a duplicate to `tainted_models`, and the success path removes
only one occurrence. -/
theorem C9_counterexample :
    (c9run.toOption.map (fun r => r.1 && r.2.available_models.contains "M"
        && r.2.tainted_models.contains "M")) = some true := by decide

/-- C9 amended: the round-trip holds from every state that lists the name
at most once in `available_models`, at most once in `tainted_models` and
not in both (the intended representation invariant): after `taint_model`
and a subsequent successful `download_model`, the name is in
`available_models` and not in `tainted_models`. (Reachable states
violating the invariant exist — see the counterexample — and there a
successful download removes only one of the accumulated occurrences.) -/
theorem C9_taint_download_roundtrip (env : Env) (s0 : MMState) (name : String)
    (s2 : MMState) (effs : List Effect)
    (ha : s0.available_models.count name ≤ 1)
    (ht : s0.tainted_models.count name ≤ 1)
    (hdisj : ¬(name ∈ s0.available_models ∧ name ∈ s0.tainted_models))
    (hdl : download_model env (taint_model s0 name) name = .ok (true, s2, effs)) :
    name ∈ s2.available_models ∧ name ∉ s2.tainted_models := by
  have h1a : name ∉ (taint_model s0 name).available_models := by
    unfold taint_model
    by_cases hm : name ∈ s0.available_models
    · rw [if_pos hm]
      intro hmem
      have hc1 : 0 < s0.available_models.count name := List.count_pos_iff.2 hm
      have hc2 : (s0.available_models.erase name).count name
          = s0.available_models.count name - 1 := List.count_erase_self ..
      have hc3 : 0 < (s0.available_models.erase name).count name :=
        List.count_pos_iff.2 hmem
      omega
    · rw [if_neg hm]; exact hm
  have h1t : (taint_model s0 name).tainted_models.count name ≤ 1 := by
    unfold taint_model
    by_cases hm : name ∈ s0.available_models
    · rw [if_pos hm]
      have hnt : name ∉ s0.tainted_models := fun hx => hdisj ⟨hm, hx⟩
      have hz : s0.tainted_models.count name = 0 := List.count_eq_zero.2 hnt
      show (s0.tainted_models ++ [name]).count name ≤ 1
      rw [List.count_append, hz]
      simp
    · rw [if_neg hm]; exact ht
  obtain ⟨d, hval, hs2⟩ := download_model_ok_inv h1a hdl
  constructor
  · obtain ⟨e, hl, hc⟩ :=
      validate_model_ok env { taint_model s0 name with disk := d } name hval
    rw [hs2]
    apply init_sets_avail_mem (e := e)
    · rw [untaint_models]; exact hl
    · rw [check_available_congr (model_files e) (untaint_disk ..) (untaint_base ..)]
      exact hc
  · rw [hs2, init_sets_tainted]
    exact untaint_not_mem h1t

/-- C9 amended witness: from the fixture with "M" available and nothing
tainted, taint "M" then download "M" succeeds and ends with "M" available
and untainted. -/
theorem C9_taint_download_roundtrip_witness :
    "M" ∈ c9wfinal.available_models ∧ "M" ∉ c9wfinal.tainted_models :=
  C9_taint_download_roundtrip demoEnv c9wstate "M" c9wfinal c9weffs
    (by decide) (by decide) (by decide) rfl

end Nataili
